import Mathlib

/-!
Verification development for the `tramp` trampoline crate.

The crate (src/lib.rs) provides:
  * `Thunk<'a, T>` — a boxed one-shot computation (`fun: Box<dyn FnThunk>`),
    built by `Thunk::new` and forced by `Thunk::compute`;
  * `BorrowRec<'a, T>` — the two-variant step type (`Ret(T)` /
    `Call(Thunk<BorrowRec<T>>)`);
  * `tramp` — the driver loop that repeatedly forces `Call` thunks until a
    `Ret` value appears.

We embed the data type inductively (Lean values of the inductive type are
exactly the finite chains) and additionally model the driver loop itself as
a fuel-indexed iteration over an abstract step coalgebra, which lets us talk
about chains that never produce `Ret`.  Machine integers (`u128`) are
modelled as `Nat` with explicit reduction `% 2 ^ 128` where overflow matters.
-/

namespace Tramp

universe u

/-- Model of `Thunk<'a, T>`: a boxed nullary computation.  The Rust struct
holds `fun: Box<dyn FnThunk<Out = T>>`; boxing and trait-object erasure have
no observable content in the embedding, so the field is a plain function out
of `Unit`. -/
structure Thunk (α : Type u) : Type u where
  fun' : Unit → α

/-- Model of `FnThunk::call_boxed` (src/lib.rs lines 126-128): invoke the
boxed closure once. -/
def call_boxed {α : Type u} (f : Unit → α) : α := f ()

/-- Model of `Thunk::new` (src/lib.rs lines 134-138). -/
def Thunk.new {α : Type u} (f : Unit → α) : Thunk α := ⟨f⟩

/-- Model of `Thunk::compute` (src/lib.rs lines 141-143):
`self.fun.call_boxed()`. -/
def Thunk.compute {α : Type u} (t : Thunk α) : α := call_boxed t.fun'

/-- Model of `BorrowRec<'a, T>` (src/lib.rs lines 97-105). -/
inductive BorrowRec (T : Type u) : Type u where
  | Ret : T → BorrowRec T
  | Call : Thunk (BorrowRec T) → BorrowRec T

/-- Model of `tramp` (src/lib.rs lines 156-163).  The Rust driver is a loop
`loop { match res { Ret x => break x, Call t => res = t.compute() } }`; on
the inductive type this loop is total, so it is rendered as recursion on the
chain. -/
def tramp {T : Type u} : BorrowRec T → T
  | .Ret x => x
  | .Call t => tramp (t.fun' ())

/-- Number of `Call` links in a chain: how many thunk forcings the driver
performs before reaching `Ret`. -/
def steps {T : Type u} : BorrowRec T → Nat
  | .Ret _ => 0
  | .Call t => steps (t.fun' ()) + 1

/-!
### The example step functions from the crate's tests

`u128` arithmetic is modelled on `Nat` with explicit wrap-around `% 2 ^ 128`
on multiplication; subtraction is guarded (`n > 1`, `x > 0`) in the source,
so `Nat` subtraction agrees with `u128` subtraction where it is executed.
The `rec_call!(e)` macro expands to `BorrowRec::Call(Thunk::new(move || e))`
and `rec_ret!(v)` to `BorrowRec::Ret(v)` (src/lib.rs lines 170-185).
-/

/-- Model of `fac_acc` (src/tests/fac.rs lines 7-13):
`if n > 1 { rec_call!(fac_acc(n - 1, acc * n)) } else { rec_ret!(acc) }`. -/
def fac_acc (n acc : Nat) : BorrowRec Nat :=
  if h : n > 1 then
    .Call (Thunk.new fun _ => fac_acc (n - 1) (acc * n % 2 ^ 128))
  else
    .Ret acc
termination_by n

/-- The ordinary stack-recursive accumulator factorial that the trampolined
`fac_acc` is the tail-call rendering of (the doc example, src/lib.rs lines
74-80, with the same `u128` arithmetic). -/
def fac_with_acc (n acc : Nat) : Nat :=
  if h : n > 1 then
    fac_with_acc (n - 1) (acc * n % 2 ^ 128)
  else
    acc
termination_by n

/-- Model of `factorial` (src/tests/fac.rs lines 6-16): `tramp(fac_acc(n, 1))`. -/
def factorial (n : Nat) : Nat := tramp (fac_acc n 1)

mutual

/-- Model of `is_even_rec` (src/tests/mutual.rs lines 9-15). -/
def is_even_rec (x : Nat) : BorrowRec Bool :=
  if h : x > 0 then
    .Call (Thunk.new fun _ => is_odd_rec (x - 1))
  else
    .Ret true
termination_by x

/-- Model of `is_odd_rec` (src/tests/mutual.rs lines 17-23). -/
def is_odd_rec (x : Nat) : BorrowRec Bool :=
  if h : x > 0 then
    .Call (Thunk.new fun _ => is_even_rec (x - 1))
  else
    .Ret false
termination_by x

end

/-- Model of `is_even` (src/tests/mutual.rs lines 25-27). -/
def is_even (x : Nat) : Bool := tramp (is_even_rec x)

/-- Model of `is_odd` (src/tests/mutual.rs lines 29-31). -/
def is_odd (x : Nat) : Bool := tramp (is_odd_rec x)

/-!
### The driver loop as a fuel-indexed iteration

The Rust `tramp` is a `loop`, not a recursive function, and the chain it
drives is produced lazily by the thunks, so it can in principle be infinite.
To reason about (non-)termination of the loop we model one step of the chain
as an abstract step function `f : σ → StepRes σ T` (forcing the pending
thunk state `s : σ` yields either a final value or the next pending state)
and the driver as a fuel-indexed loop: `trampLoop f fuel r = some x` means
the loop reaches `Ret x` within `fuel` thunk forcings, `none` means it is
still on a `Call` after `fuel` forcings.  The actual loop terminates with
`x` iff some fuel suffices, and diverges iff no fuel does.
-/

/-- Outcome of forcing one thunk: a final value, or the next pending step. -/
inductive StepRes (σ : Type u) (T : Type v) where
  | ret : T → StepRes σ T
  | call : σ → StepRes σ T

/-- Does this step still defer? -/
def StepRes.isCall {σ : Type u} {T : Type v} : StepRes σ T → Bool
  | .ret _ => false
  | .call _ => true

/-- The driver loop of `tramp` (src/lib.rs lines 156-163) with explicit
fuel: while `res` is a `Call`, force the thunk (`f s`) and continue; on
`Ret x`, break with `x`. -/
def trampLoop {σ : Type u} {T : Type v} (f : σ → StepRes σ T) :
    Nat → StepRes σ T → Option T
  | _, .ret x => some x
  | 0, .call _ => none
  | fuel + 1, .call s => trampLoop f fuel (f s)

/-- Force the chain once: `Ret` stays, a pending step is stepped. -/
def force {σ : Type u} {T : Type v} (f : σ → StepRes σ T) :
    StepRes σ T → StepRes σ T
  | .ret x => .ret x
  | .call s => f s

/-- Force the chain `n` times. -/
def forceIter {σ : Type u} {T : Type v} (f : σ → StepRes σ T) :
    Nat → StepRes σ T → StepRes σ T
  | 0, r => r
  | n + 1, r => forceIter f n (force f r)

/-- View an inductive chain value as a step result over thunk states. -/
def toStep {T : Type u} : BorrowRec T → StepRes (Thunk (BorrowRec T)) T
  | .Ret x => .ret x
  | .Call t => .call t

/-- The concrete step function of the crate: forcing the pending thunk via
`Thunk::compute` and inspecting the resulting `BorrowRec`. -/
def forceThunk {T : Type u} (t : Thunk (BorrowRec T)) :
    StepRes (Thunk (BorrowRec T)) T :=
  toStep t.compute

/-!
### Helper lemmas
-/

@[simp]
theorem tramp_Ret {T : Type u} (x : T) : tramp (BorrowRec.Ret x) = x := rfl

theorem tramp_Call {T : Type u} (t : Thunk (BorrowRec T)) :
    tramp (BorrowRec.Call t) = tramp t.compute := rfl

theorem compute_new {α : Type u} (f : Unit → α) :
    (Thunk.new f).compute = f () := rfl

/-- The fuel-indexed driver loop, run with fuel equal to the length of the
chain, reaches the value that recursive evaluation of the chain produces. -/
theorem trampLoop_correct {T : Type u} :
    ∀ r : BorrowRec T, trampLoop forceThunk (steps r) (toStep r) = some (tramp r)
  | .Ret _ => rfl
  | .Call t => by
      have ih := trampLoop_correct (t.fun' ())
      simpa [steps, toStep, trampLoop, forceThunk, Thunk.compute, call_boxed,
        tramp_Call] using ih

/-- Once a chain reaches `ret`, further forcing leaves it there. -/
theorem forceIter_ret {σ : Type u} {T : Type v} (f : σ → StepRes σ T)
    (n : Nat) (x : T) : forceIter f n (.ret x) = .ret x := by
  induction n with
  | zero => rfl
  | succ n ih => simpa [forceIter, force] using ih

/-- Pointwise agreement of the driver loop with chain forcing: the loop
returns `x` within `n` forcings exactly when forcing the chain `n` times
reaches `ret x`. -/
theorem trampLoop_eq_some_iff {σ : Type u} {T : Type v}
    (f : σ → StepRes σ T) :
    ∀ (n : Nat) (r : StepRes σ T) (x : T),
      trampLoop f n r = some x ↔ forceIter f n r = .ret x := by
  intro n
  induction n with
  | zero =>
    intro r x
    cases r with
    | ret y => simp [trampLoop, forceIter]
    | call s => simp [trampLoop, forceIter]
  | succ n ih =>
    intro r x
    cases r with
    | ret y => simp [trampLoop, forceIter, force, forceIter_ret]
    | call s => simpa [trampLoop, forceIter, force] using ih (f s) x

/-- Driving the trampolined accumulator factorial computes `acc * n!`, as
long as that product fits in `u128` (then no intermediate multiplication
wraps, since every intermediate product divides `acc * n!`). -/
theorem fac_acc_tramp (n : Nat) : ∀ acc : Nat,
    acc * Nat.factorial n < 2 ^ 128 →
    tramp (fac_acc n acc) = acc * Nat.factorial n := by
  induction n using Nat.strong_induction_on with
  | _ n ih =>
    intro acc h
    by_cases hn : n > 1
    · rw [fac_acc, dif_pos hn, tramp_Call, compute_new]
      have hle : acc * n ≤ acc * Nat.factorial n :=
        Nat.mul_le_mul (Nat.le_refl acc) (Nat.self_le_factorial n)
      have hmod : acc * n % 2 ^ 128 = acc * n :=
        Nat.mod_eq_of_lt (Nat.lt_of_le_of_lt hle h)
      have hfac : acc * n * Nat.factorial (n - 1) = acc * Nat.factorial n := by
        rw [Nat.mul_assoc, Nat.mul_factorial_pred (by omega)]
      rw [hmod, ih (n - 1) (by omega) (acc * n) (by rw [hfac]; exact h), hfac]
    · rw [fac_acc, dif_neg hn, tramp_Ret]
      rw [Nat.factorial_eq_one.mpr (by omega), Nat.mul_one]

/-- The trampolined factorial agrees with the ordinary stack-recursive
accumulator implementation on every input (both with `u128` wrap-around). -/
theorem fac_acc_eq_fac_with_acc (n : Nat) : ∀ acc : Nat,
    tramp (fac_acc n acc) = fac_with_acc n acc := by
  induction n using Nat.strong_induction_on with
  | _ n ih =>
    intro acc
    by_cases hn : n > 1
    · rw [fac_acc, dif_pos hn, tramp_Call, compute_new, ih (n - 1) (by omega)]
      conv_rhs => rw [fac_with_acc]
      rw [dif_pos hn]
    · rw [fac_acc, dif_neg hn, tramp_Ret, fac_with_acc, dif_neg hn]

/-!
### The driver loop under failures

A Rust panic raised inside a thunk's captured computation unwinds out of
`Thunk::compute` and out of `tramp`, since neither contains any
`catch_unwind` (src/lib.rs lines 141-143 and 156-163).  We model a possibly
failing step function as `f : σ → Except E (StepRes σ T)`; an `Except.error`
at a forcing aborts the loop at exactly that forcing, which is what the
absence of a handler means operationally.
-/

/-- The driver loop of `tramp` with a possibly failing step function:
`.ok (some x)` means the loop reached `Ret x`, `.ok none` means fuel ran
out on a `Call`, `.error e` means a forcing failed and the failure unwound
out of the loop. -/
def trampLoopE {σ : Type u} {T : Type v} {E : Type w}
    (f : σ → Except E (StepRes σ T)) :
    Nat → StepRes σ T → Except E (Option T)
  | _, .ret x => .ok (some x)
  | 0, .call _ => .ok none
  | fuel + 1, .call s =>
    match f s with
    | .error e => .error e
    | .ok r => trampLoopE f fuel r

/-- Force a possibly failing chain once. -/
def forceE {σ : Type u} {T : Type v} {E : Type w}
    (f : σ → Except E (StepRes σ T)) :
    StepRes σ T → Except E (StepRes σ T)
  | .ret x => .ok (.ret x)
  | .call s => f s

/-- Force a possibly failing chain `n` times, stopping at the first
failure. -/
def forceIterE {σ : Type u} {T : Type v} {E : Type w}
    (f : σ → Except E (StepRes σ T)) :
    Nat → StepRes σ T → Except E (StepRes σ T)
  | 0, r => .ok r
  | n + 1, r =>
    match forceE f r with
    | .error e => .error e
    | .ok r' => forceIterE f n r'

theorem forceIterE_ret {σ : Type u} {T : Type v} {E : Type w}
    (f : σ → Except E (StepRes σ T)) (n : Nat) (x : T) :
    forceIterE f n (.ret x) = .ok (.ret x) := by
  induction n with
  | zero => rfl
  | succ n ih => simpa [forceIterE, forceE] using ih

/-- The driver raises `e` within `n` forcings exactly when the `n`-fold
forcing of the chain raises `e`: failures surface at the forcing that
raises them, unmodified. -/
theorem trampLoopE_error_iff {σ : Type u} {T : Type v} {E : Type w}
    (f : σ → Except E (StepRes σ T)) :
    ∀ (n : Nat) (r : StepRes σ T) (e : E),
      trampLoopE f n r = .error e ↔ forceIterE f n r = .error e := by
  intro n
  induction n with
  | zero =>
    intro r e
    cases r with
    | ret x => simp [trampLoopE, forceIterE]
    | call s => simp [trampLoopE, forceIterE]
  | succ n ih =>
    intro r e
    cases r with
    | ret x => simp [trampLoopE, forceIterE, forceE, forceIterE_ret]
    | call s =>
      cases hfs : f s with
      | error e' => simp [trampLoopE, forceIterE, forceE, hfs]
      | ok r' => simpa [trampLoopE, forceIterE, forceE, hfs] using ih r' e

/-- A step function that always defers: the ever-`Call` chain. -/
def neverStep : Unit → StepRes Unit Unit := fun _ => .call ()

theorem neverStep_isCall :
    ∀ n, (forceIter neverStep n (.call ())).isCall = true := by
  intro n
  induction n with
  | zero => rfl
  | succ n ih => simpa [forceIter, force, neverStep] using ih

/-- A step function that defers while counting down and fails (models a
panic) exactly when forced at `0`. -/
def failStep : Nat → Except String (StepRes Nat Nat) := fun k =>
  if k = 0 then .error "boom" else .ok (.call (k - 1))

/-- Parity of the mutually-deferring chains: driving `is_even_rec x` /
`is_odd_rec x` computes the parity of `x`. -/
theorem parity_tramp (x : Nat) :
    tramp (is_even_rec x) = decide (x % 2 = 0) ∧
    tramp (is_odd_rec x) = decide (x % 2 = 1) := by
  induction x with
  | zero =>
    constructor
    · rw [is_even_rec, dif_neg (by omega)]
      simp
    · rw [is_odd_rec, dif_neg (by omega)]
      simp
  | succ n ih =>
    constructor
    · rw [is_even_rec, dif_pos (Nat.succ_pos n), tramp_Call, compute_new,
        Nat.add_sub_cancel, ih.2]
      exact decide_eq_decide.mpr (by omega)
    · rw [is_odd_rec, dif_pos (Nat.succ_pos n), tramp_Call, compute_new,
        Nat.add_sub_cancel, ih.1]
      exact decide_eq_decide.mpr (by omega)

/-!
### The claims
-/

/-- Claim C1: for every finite step chain, the trampoline driver loop
produces the value of the ordinary recursive evaluation of the chain; the
trampolined accumulator factorial agrees with the stack-recursive
accumulator implementation on every input; and for every `n` in the valid
domain of `u128` factorial (`n! < 2 ^ 128`), `tramp (fac_acc n 1)` is the
mathematical factorial of `n`. -/
theorem C1_driver_refines_recursion :
    (∀ (T : Type) (r : BorrowRec T),
        ∃ fuel, trampLoop forceThunk fuel (toStep r) = some (tramp r))
    ∧ (∀ n acc : Nat, tramp (fac_acc n acc) = fac_with_acc n acc)
    ∧ (∀ n : Nat, Nat.factorial n < 2 ^ 128 →
        tramp (fac_acc n 1) = Nat.factorial n) := by
  refine ⟨fun T r => ⟨steps r, trampLoop_correct r⟩,
    fun n acc => fac_acc_eq_fac_with_acc n acc, fun n h => ?_⟩
  simpa using fac_acc_tramp n 1 (by simpa using h)

/-- Witness for C1 at `n = 5`. -/
theorem C1_witness :
    Nat.factorial 5 < 2 ^ 128 ∧ tramp (fac_acc 5 1) = Nat.factorial 5 :=
  ⟨by decide, C1_driver_refines_recursion.2.2 5 (by decide)⟩

/-- Claim C3: the driver loop reaches a value within `n` forcings exactly
when the chain reaches `Ret` within `n` forcings (so it terminates iff the
chain eventually produces `Ret`); a chain that always produces `Call` makes
the loop return nothing at every fuel (it never terminates, and the driver
detects nothing); and the concrete `fac_acc` and `is_even_rec`/`is_odd_rec`
chains are driven to a value for every input, their first argument being
strictly decreasing. -/
theorem C3_loop_termination :
    (∀ (σ T : Type) (f : σ → StepRes σ T) (n : Nat) (r : StepRes σ T) (x : T),
        trampLoop f n r = some x ↔ forceIter f n r = .ret x)
    ∧ (∀ (σ T : Type) (f : σ → StepRes σ T) (r : StepRes σ T),
        (∀ n, (forceIter f n r).isCall = true) →
        ∀ n, trampLoop f n r = none)
    ∧ (∀ n acc : Nat,
        ∃ fuel x, trampLoop forceThunk fuel (toStep (fac_acc n acc)) = some x)
    ∧ (∀ i : Nat,
        (∃ fuel b, trampLoop forceThunk fuel (toStep (is_even_rec i)) = some b)
        ∧ ∃ fuel b, trampLoop forceThunk fuel (toStep (is_odd_rec i)) = some b) := by
  refine ⟨fun σ T f n r x => trampLoop_eq_some_iff f n r x,
    fun σ T f r hcall n => ?_,
    fun n acc => ⟨steps _, tramp _, trampLoop_correct _⟩,
    fun i => ⟨⟨steps _, tramp _, trampLoop_correct _⟩,
      ⟨steps _, tramp _, trampLoop_correct _⟩⟩⟩
  cases htl : trampLoop f n r with
  | none => rfl
  | some x =>
    have hret := (trampLoop_eq_some_iff f n r x).mp htl
    have := hcall n
    rw [hret] at this
    simp [StepRes.isCall] at this

/-- Witness for C3: the ever-`Call` chain gives the loop nothing at fuel 7,
and the factorial chain at `(5, 1)` is driven to a value. -/
theorem C3_witness :
    trampLoop neverStep 7 (.call ()) = none
    ∧ ∃ fuel x, trampLoop forceThunk fuel (toStep (fac_acc 5 1)) = some x :=
  ⟨C3_loop_termination.2.1 Unit Unit neverStep (.call ()) neverStep_isCall 7,
    C3_loop_termination.2.2.1 5 1⟩

/-- Claim C5: a failure raised by a step's computation surfaces out of the
driver loop exactly at the forcing that raises it and unmodified (`error e`
within `n` forcings iff the `n`-fold chain forcing raises `e`), and never
before (if the first `n` forcings all succeed, driving with fuel `n` raises
nothing); the loop itself introduces or transforms no failures. -/
theorem C5_error_propagation :
    ∀ (σ T E : Type) (f : σ → Except E (StepRes σ T)) (n : Nat)
      (r : StepRes σ T),
      (∀ e : E, trampLoopE f n r = .error e ↔ forceIterE f n r = .error e)
      ∧ (∀ r' : StepRes σ T, forceIterE f n r = .ok r' →
          ∀ e : E, trampLoopE f n r ≠ .error e) := by
  intro σ T E f n r
  refine ⟨fun e => trampLoopE_error_iff f n r e, fun r' hok e he => ?_⟩
  rw [(trampLoopE_error_iff f n r e).mp he] at hok
  exact Except.noConfusion hok

/-- Witness for C5: `failStep` defers at 2 and 1 and fails when forced at 0,
so driving `call 2` with fuel 3 raises exactly `"boom"`, while fuel 2 (the
failing step not yet forced) raises nothing. -/
theorem C5_witness :
    trampLoopE failStep 3 (.call 2) = .error "boom"
    ∧ trampLoopE failStep 2 (.call 2) ≠ .error "boom" :=
  ⟨((C5_error_propagation Nat Nat String failStep 3 (.call 2)).1 "boom").mpr rfl,
    (C5_error_propagation Nat Nat String failStep 2 (.call 2)).2 (.call 0) rfl "boom"⟩

/-- Claim C6: driving an immediately-final step returns its value with zero
thunk forcings (fuel 0 suffices, and the chain has zero `Call` links). -/
theorem C6_ret_is_immediate :
    ∀ (T : Type) (x : T),
      tramp (BorrowRec.Ret x) = x
      ∧ trampLoop (forceThunk (T := T)) 0 (toStep (BorrowRec.Ret x)) = some x
      ∧ steps (BorrowRec.Ret x) = 0 :=
  fun T x => ⟨rfl, rfl, rfl⟩

/-- Claim C7: `Thunk.new` is total by construction (a plain constructor
application), and forcing the thunk with `compute` routes through
`call_boxed` to apply the captured computation once, returning exactly the
value the computation itself returns. -/
theorem C7_thunk_new_compute :
    ∀ (T : Type) (f : Unit → T),
      Thunk.new f = ⟨f⟩
      ∧ (Thunk.new f).compute = call_boxed f
      ∧ (Thunk.new f).compute = f () :=
  fun T f => ⟨rfl, rfl, rfl⟩

/-- Claim C8: `fac_acc n acc` is the deferred step forcing to
`fac_acc (n - 1) (acc * n)` (with `u128` wrap-around) when `n > 1` and the
final step carrying `acc` otherwise; driving gives
`tramp (fac_acc 5 1) = 120` and `tramp (fac_acc 0 1) = 1`. -/
theorem C8_fac_step_shape :
    (∀ n acc : Nat, n > 1 →
        fac_acc n acc =
          .Call (Thunk.new fun _ => fac_acc (n - 1) (acc * n % 2 ^ 128)))
    ∧ (∀ n acc : Nat, ¬ n > 1 → fac_acc n acc = .Ret acc)
    ∧ tramp (fac_acc 5 1) = 120
    ∧ tramp (fac_acc 0 1) = 1 := by
  refine ⟨fun n acc h => ?_, fun n acc h => ?_, ?_, ?_⟩
  · rw [fac_acc, dif_pos h]
  · rw [fac_acc, dif_neg h]
  · simpa using fac_acc_tramp 5 1 (by decide)
  · rw [fac_acc, dif_neg (by omega), tramp_Ret]

/-- Witness for C8 at `n = 5` (deferring) and `n = 1` (final). -/
theorem C8_witness :
    fac_acc 5 1 = .Call (Thunk.new fun _ => fac_acc 4 (1 * 5 % 2 ^ 128))
    ∧ fac_acc 1 7 = .Ret 7 :=
  ⟨C8_fac_step_shape.1 5 1 (by decide), C8_fac_step_shape.2.1 1 7 (by decide)⟩

/-- Claim C9: on every integer in `10000..10050`, the trampolined parity
functions agree with direct parity computation. -/
theorem C9_parity_range :
    ∀ i : Nat, 10000 ≤ i → i < 10050 →
      is_even i = decide (i % 2 = 0) ∧ is_odd i = decide (i % 2 = 1) := by
  intro i _ _
  simpa [is_even, is_odd] using parity_tramp i

/-- Witness for C9 at `i = 10001`. -/
theorem C9_witness :
    is_even 10001 = decide (10001 % 2 = 0)
    ∧ is_odd 10001 = decide (10001 % 2 = 1) :=
  C9_parity_range 10001 (by decide) (by decide)

/-- Claim C10: driving a deferred step is driving the step obtained by
forcing it once: `tramp` is a fixpoint of single-step unfolding. -/
theorem C10_unfold_fixpoint :
    ∀ (T : Type) (f : Unit → BorrowRec T),
      tramp (BorrowRec.Call (Thunk.new f)) = tramp (f ()) :=
  fun T f => rfl

end Tramp
